import Mathlib

/-!
Shallow embedding of `iambic/core/git.py`: the change-classification and
account-scope reconciliation core (Revision Differencer, Scope Reconciler,
Deletion Materializer), together with the data model it manipulates.

Python's `re.search(pattern, s)` is modelled for the pattern shapes the code
actually builds: plain account-identifier literals (searched as substrings)
and the two-way alternation `(id|name)` built for registry accounts.
-/

namespace Iambic

/-- Character equality through code points, so that kernel reduction stays on
`Nat` arithmetic. -/
def chEq (a b : Char) : Bool := a.toNat == b.toNat

/-- `needle` is a prefix of `hay` (over character lists). -/
def charsHasPrefix : (hay needle : List Char) → Bool
  | _, [] => true
  | [], _ :: _ => false
  | h :: t, h2 :: t2 => chEq h h2 && charsHasPrefix t t2

/-- `needle` occurs contiguously somewhere in `hay`. -/
def charsHasSub : (hay needle : List Char) → Bool
  | [], needle => needle.isEmpty
  | h :: t, needle => charsHasPrefix (h :: t) needle || charsHasSub t needle

/-- Python `re.search(pat, s)` for a pattern that is a plain literal:
substring search. -/
def reSearchLit (pat s : String) : Bool := charsHasSub s.data pat.data

/-- `s.startswith(pre)` over character lists. -/
def strStartsWith (s pre : String) : Bool := charsHasPrefix s.data pre.data

/-- `s.endswith(suffix)` over character lists. -/
def strEndsWith (s suffix : String) : Bool :=
  charsHasPrefix s.data.reverse suffix.data.reverse

/-- `"\n".join(xs)`. -/
def joinNL (xs : List String) : String := String.intercalate "\n" xs

/-- One entry of the Account Registry (`config.aws.accounts`). -/
structure AwsAccount where
  account_id : String
  account_name : String
deriving DecidableEq, Repr

/-- The regex text `rf"({account_id}|{account_name})"` built at
`git.py:223-225`. -/
def accountRegex (a : AwsAccount) : String :=
  "(" ++ a.account_id ++ "|" ++ a.account_name ++ ")"

/-- Python `re.search(rf"({id}|{name})", s)`: the alternation matches iff
either literal occurs in `s`. -/
def accountRegexSearch (a : AwsAccount) (s : String) : Bool :=
  reSearchLit a.account_id s || reSearchLit a.account_name s

/-- Modelled from the spec: the Deletion Directive record (`Deleted` in
`iambic.aws.models`, absent from the sources): `{deleted, included_accounts,
excluded_accounts}`. -/
structure Deleted where
  deleted : Bool
  included_accounts : List String
  excluded_accounts : List String
deriving DecidableEq, Repr

/-- The `deleted` field of a template record: either a boolean or an ordered
list of Deletion Directives. -/
inductive DeletedField where
  | bool (b : Bool)
  | dirs (l : List Deleted)
deriving DecidableEq, Repr

/-- Modelled from the spec: the Template Record (the pydantic template classes
live outside the given sources): kind tag, path, computed identity, account
scoping and the deletion field. -/
structure TemplateRecord where
  file_path : String
  template_type : String
  resource_id : String
  included_accounts : List String
  excluded_accounts : List String
  deleted : DeletedField
deriving DecidableEq, Repr

/-! ## Scope Reconciler (`create_templates_for_modified_files`, git.py:184-339)

`main_template` is the baseline (pre-image) record, `template` the current
(on-disk) record. The per-record reconciliation is decomposed into the named
passes of the source, then reassembled in `reconcileOne`. -/

/-- Wildcard branch of the shrink pass (git.py:222-241): for each registry
account whose `(id|name)` pattern finds no match in the newline-joined
current `included_accounts`, the pattern text is marked dropped. -/
def wildcardShrink (config : List AwsAccount) (currentIncStr : String) :
    List String :=
  config.foldl
    (fun acc a =>
      if accountRegexSearch a currentIncStr then acc
      else acc ++ [accountRegex a]) []

/-- Explicit branch of the shrink pass (git.py:256-272): each baseline
matcher not found in the newline-joined current `included_accounts` is
marked dropped. -/
def explicitShrink (mainInc : List String) (currentIncStr : String) :
    List String :=
  mainInc.foldl
    (fun acc account =>
      if reSearchLit account currentIncStr then acc
      else acc ++ [account]) []

/-- The shrink pass (git.py:207-272): skipped when the current record still
holds the wildcard; wildcard branch when the baseline held it; explicit
branch otherwise. -/
def shrinkPass (config : List AwsAccount) (mainT t : TemplateRecord) :
    List String :=
  if t.included_accounts.contains "*" then []
  else if mainT.included_accounts.contains "*" then
    wildcardShrink config (joinNL t.included_accounts)
  else
    explicitShrink mainT.included_accounts (joinNL t.included_accounts)

/-- Truthy `main_template_excluded_accounts_str` and the search against it
(git.py:275-279, 294-296): the joined baseline excluded list must be non-None
(list non-empty) and a non-empty string, and contain the matcher. -/
def alreadyExcludedB (mainT : TemplateRecord) (account : String) : Bool :=
  !mainT.excluded_accounts.isEmpty
    && !(joinNL mainT.excluded_accounts).isEmpty
    && reSearchLit account (joinNL mainT.excluded_accounts)

/-- Previously-live test of the newly-excluded pass (git.py:304-307): the
matcher searches into the newline-joined baseline `included_accounts`, or
the baseline held the wildcard. -/
def previouslyLiveB (mainT : TemplateRecord) (account : String) : Bool :=
  reSearchLit account (joinNL mainT.included_accounts)
    || mainT.included_accounts.contains "*"

/-- A current excluded matcher moves into the Deletion Directive iff it is not
already excluded in the baseline and was previously live. -/
def movedToDirectiveB (mainT : TemplateRecord) (account : String) : Bool :=
  !alreadyExcludedB mainT account && previouslyLiveB mainT account

/-- The newly-excluded pass (git.py:293-324): returns the matchers appended to
`deleted_included_accounts` (first component) and the rebuilt
`template_excluded_accounts` (second component). -/
def excludedClassify (mainT : TemplateRecord) (excluded : List String) :
    List String × List String :=
  excluded.foldl
    (fun acc account =>
      if alreadyExcludedB mainT account then (acc.1, acc.2 ++ [account])
      else if previouslyLiveB mainT account then (acc.1 ++ [account], acc.2)
      else (acc.1, acc.2 ++ [account])) ([], [])

/-- The full `deleted_included_accounts` accumulator after both passes. -/
def deletedIncludedAccounts (config : List AwsAccount)
    (mainT t : TemplateRecord) : List String :=
  shrinkPass config mainT t ++ (excludedClassify mainT t.excluded_accounts).1

/-- The Deletion Directive synthesized at git.py:327-331: `deleted=True`,
the accumulated dropped matchers, and the snapshot of the current record's
`included_accounts` (`deleted_exclude_accounts`, git.py:204) stripped of the
wildcard. -/
def mkDirective (config : List AwsAccount) (mainT t : TemplateRecord) :
    Deleted :=
  { deleted := true
    included_accounts := deletedIncludedAccounts config mainT t
    excluded_accounts := t.included_accounts.filter (fun ea => ea != "*") }

/-- Per-record body of `create_templates_for_modified_files`
(git.py:194-337): run both passes, extend the current record's
`included_accounts` with everything marked dropped, replace its
`excluded_accounts` with the rebuilt list, and attach the directive when the
accumulator is non-empty and `deleted` is not boolean `True`. -/
def reconcileOne (config : List AwsAccount) (mainT t : TemplateRecord) :
    TemplateRecord :=
  let deletedInc := deletedIncludedAccounts config mainT t
  let t1 : TemplateRecord :=
    { t with
      included_accounts := t.included_accounts ++ deletedInc
      excluded_accounts := (excludedClassify mainT t.excluded_accounts).2 }
  if deletedInc.isEmpty then t1
  else if t.deleted = DeletedField.bool true then t1
  else
    match t1.deleted with
    | DeletedField.bool _ =>
        { t1 with deleted := DeletedField.dirs [mkDirective config mainT t] }
    | DeletedField.dirs l =>
        { t1 with
          deleted := DeletedField.dirs (l ++ [mkDirective config mainT t]) }

/-- `create_templates_for_modified_files` over already-parsed
(baseline, current) record pairs; parsing is the external document
collaborator. -/
def create_templates_for_modified_files (config : List AwsAccount)
    (pairs : List (TemplateRecord × TemplateRecord)) : List TemplateRecord :=
  pairs.map (fun p => reconcileOne config p.1 p.2)

/-! ## Deletion Materializer (`create_templates_for_deleted_files`,
git.py:164-181) -/

/-- `create_templates_for_deleted_files` over already-parsed records: skip a
record whose `deleted` is already boolean `True`, otherwise force
`deleted = True` and emit. -/
def create_templates_for_deleted_files (ts : List TemplateRecord) :
    List TemplateRecord :=
  ts.foldl
    (fun acc t =>
      if t.deleted = DeletedField.bool true then acc
      else acc ++ [{ t with deleted := DeletedField.bool true }]) []

/-! ## Revision Differencer (`retrieve_git_changes`, git.py:58-161)

The git client, the YAML parser and the management-tag regex
(`NOQ_TEMPLATE_REGEX`, `file_regex_search`, `yaml` from `iambic.core.utils`)
are external collaborators; they are carried as parameters: `disk` maps a
path to the raw on-disk content, `ParseEnv` bundles the tag-match test, the
document parse and the computed `resource_id` of a parsed document. -/

/-- The Change Record (`GitDiff`, git.py:22-25). -/
structure GitDiff where
  path : String
  content : Option String := none
  is_deleted : Bool := false
deriving DecidableEq, Repr

/-- POSIX `os.path.join` for two components: an absolute second component
supersedes the first. -/
def pathJoin (a b : String) : String :=
  if strStartsWith b "/" then b
  else if strEndsWith a "/" then a ++ b
  else a ++ "/" ++ b

/-- A parsed template document (the dict produced by `yaml.load`): the type
tag and the remaining key/value entries. -/
structure Doc where
  template_type : String
  body : List (String × String)
deriving DecidableEq, Repr

/-- `DeepDiff(a, b, ignore_order=True, report_repetition=True)` is empty:
structural equality where sequence order is ignored but multiplicity is
kept — the bodies are permutations of one another. -/
def deepDiffEmptyB (a b : Doc) : Bool :=
  a.template_type == b.template_type && decide (a.body.Perm b.body)

/-- External document collaborators: the management-tag regex search over raw
text, `yaml.load`, and the `resource_id` computed by the template class from
a parsed document. -/
structure ParseEnv where
  noqMatch : String → Bool
  parse : String → Doc
  resourceId : Doc → String

/-- Which side of the diff a change sits on (`iter_change_type` argument). -/
inductive ChangeKind where
  | A
  | D
  | M
deriving DecidableEq, Repr

/-- One entry of the tree diff: change class, both paths, and the pre-image
blob content (`a_blob`). -/
structure ChangeEntry where
  kind : ChangeKind
  a_path : String
  b_path : String
  a_content : String
deriving Repr

/-- The three buckets returned by `retrieve_git_changes`. -/
structure ChangeBuckets where
  new_files : List GitDiff
  deleted_files : List GitDiff
  modified_files : List GitDiff
deriving DecidableEq, Repr

/-- Added-file handling (git.py:100-105): keep `.yaml` paths whose on-disk
content carries the management tag; the emitted record has no content and
its path is joined a second time as in the source. -/
def processAdded (env : ParseEnv) (repo_dir : String) (disk : String → String)
    (e : ChangeEntry) : List GitDiff :=
  let path := pathJoin repo_dir e.b_path
  if strEndsWith path ".yaml" && env.noqMatch (disk path) then
    [{ path := pathJoin repo_dir path }]
  else []

/-- Deleted-file handling (git.py:108-116): keep `.yaml` paths whose
pre-image blob carries the management tag; the record holds the pre-image
and `is_deleted=True`. -/
def processDeleted (env : ParseEnv) (repo_dir : String) (e : ChangeEntry) :
    List GitDiff :=
  if strEndsWith e.b_path ".yaml" then
    let file : GitDiff :=
      { path := pathJoin repo_dir e.b_path, content := some e.a_content,
        is_deleted := true }
    if env.noqMatch e.a_content then [file] else []
  else []

/-- Modified-file handling (git.py:119-159), returning the
(new, deleted, modified) contributions of one entry: rename resolution via
the order-insensitive document comparison and the `resource_id` check,
otherwise a single modified record carrying the pre-image content. -/
def processModified (env : ParseEnv) (repo_dir : String)
    (disk : String → String) (e : ChangeEntry) :
    List GitDiff × List GitDiff × List GitDiff :=
  let path := pathJoin repo_dir e.b_path
  if strEndsWith path ".yaml" && env.noqMatch (disk path) then
    let modRecord : GitDiff :=
      { path := pathJoin repo_dir path, content := some e.a_content }
    let main_path := pathJoin repo_dir e.a_path
    if main_path != path then
      let deleted_file : GitDiff :=
        { path := main_path, content := some e.a_content, is_deleted := true }
      if env.noqMatch e.a_content then
        let template_dict := env.parse (disk path)
        let main_template_dict := env.parse e.a_content
        if deepDiffEmptyB template_dict main_template_dict then ([], [], [])
        else if env.resourceId main_template_dict
            != env.resourceId template_dict then
          ([{ path := path }], [deleted_file], [])
        else ([], [], [modRecord])
      else ([], [], [modRecord])
    else ([], [], [modRecord])
  else ([], [], [])

/-- The diff-classification core of `retrieve_git_changes` (git.py:92-161):
iterate the three change classes in source order and accumulate the
buckets. -/
def retrieve_git_changes (env : ParseEnv) (repo_dir : String)
    (disk : String → String) (changes : List ChangeEntry) : ChangeBuckets :=
  let added := (changes.filter (fun e => e.kind == ChangeKind.A)).foldl
    (fun acc e => acc ++ processAdded env repo_dir disk e) []
  let deleted := (changes.filter (fun e => e.kind == ChangeKind.D)).foldl
    (fun acc e => acc ++ processDeleted env repo_dir e) []
  let fromModified := (changes.filter (fun e => e.kind == ChangeKind.M)).foldl
    (fun acc e =>
      let r := processModified env repo_dir disk e
      (acc.1 ++ r.1, acc.2.1 ++ r.2.1, acc.2.2 ++ r.2.2)) ([], [], [])
  { new_files := added ++ fromModified.1
    deleted_files := deleted ++ fromModified.2.1
    modified_files := fromModified.2.2 }

/-- Dirty-tree report (git.py:65-70): the error log fires whenever the repo
is dirty; the `allow_dirty` argument is never consulted by the function
body and nothing is raised. -/
def dirtyLogs (is_dirty : Bool) (_allow_dirty : Bool) : List String :=
  if is_dirty then
    ["Template git repo is dirty, and `allow_dirty` is not enabled. " ++
      "Refusing to proceed"]
  else []

/-- Entry point including the dirty-tree check: the logs emitted and the
buckets; the diff is computed regardless of the dirty state. -/
def retrieve_git_changes_full (env : ParseEnv) (repo_dir : String)
    (disk : String → String) (changes : List ChangeEntry)
    (is_dirty allow_dirty : Bool) : List String × ChangeBuckets :=
  (dirtyLogs is_dirty allow_dirty,
    retrieve_git_changes env repo_dir disk changes)

/-- `main_or_master` (git.py:28-34): `"main"` when a branch named `main`
exists, else `"master"` when one named `master` exists, else the
`ValueError`. -/
def main_or_master (heads : List String) : Except String String :=
  if heads.contains "main" then Except.ok "main"
  else if heads.contains "master" then Except.ok "master"
  else Except.error "Repository does not contain main or master"

/-- `from_sha` resolution in `retrieve_git_changes` (git.py:75-84): an unset
`from_sha` resolves to the literal ref `"origin/main"` (the default branch
name is not consulted). -/
def resolveFromRev (from_sha : Option String) : String :=
  match from_sha with
  | some s => s
  | none => "origin/main"

/-- Whether the remotes are fetched before resolving (git.py:76-78): only
when `from_sha` is unset. -/
def fetchesRemotes (from_sha : Option String) : Bool := from_sha.isNone

/-- Modelled from the spec: the `fromRev` resolution as §4.1 words it —
"resolve `fromRev` to the remote default branch tip
(`origin/<main-or-master>`); if neither `main` nor `master` exists among
branches, fail with a `ConfigurationError`". Stated only to be compared
against `resolveFromRev`. -/
def resolveFromRevSpec (heads : List String) (from_sha : Option String) :
    Except String String :=
  match from_sha with
  | some s => Except.ok s
  | none => (main_or_master heads).map (fun b => "origin/" ++ b)

/-- A template record with fixed bookkeeping fields, used to build concrete
reconciliation inputs. -/
def mkRec (inc exc : List String) (d : DeletedField) : TemplateRecord :=
  { file_path := "google_groups/d/g.yaml"
    template_type := "NOQ::Google::Group"
    resource_id := "g"
    included_accounts := inc
    excluded_accounts := exc
    deleted := d }

/-- Concrete collaborators for a pure rename: every raw text carries the
management tag and parses to the same document. -/
def pureRenameEnv : ParseEnv :=
  { noqMatch := fun _ => true
    parse := fun _ => { template_type := "NOQ::Google::Group", body := [] }
    resourceId := fun _ => "g" }

/-- Concrete collaborators for a rename that changes the resource identity:
the pre-image text `"pre"` parses to a document with the old email, any
other text to one with the new email; the identity is the first body
value. -/
def idChangeEnv : ParseEnv :=
  { noqMatch := fun _ => true
    parse := fun s =>
      if s == "pre" then
        { template_type := "NOQ::Google::Group", body := [("email", "old@x")] }
      else
        { template_type := "NOQ::Google::Group", body := [("email", "new@x")] }
    resourceId := fun d => ((d.body.head?).map Prod.snd).getD "" }

/-- A rename diff entry: the path moved from `a.yaml` to `b.yaml` and the
pre-image blob is the text `"pre"`. -/
def renameEntry : ChangeEntry :=
  { kind := ChangeKind.M, a_path := "a.yaml", b_path := "b.yaml",
    a_content := "pre" }

/-- A working tree whose every file reads as the text `"post"`. -/
def diskPost : String → String := fun _ => "post"

end Iambic

namespace Iambic

/-! ## General lemmas about the passes -/

/-- The newly-excluded fold is an order-preserving partition: an element goes
to the directive side iff it is not already excluded and was previously
live. -/
theorem excludedClassify_go (mainT : TemplateRecord) (xs : List String)
    (acc : List String × List String) :
    xs.foldl
      (fun acc account =>
        if alreadyExcludedB mainT account then (acc.1, acc.2 ++ [account])
        else if previouslyLiveB mainT account then
          (acc.1 ++ [account], acc.2)
        else (acc.1, acc.2 ++ [account])) acc
      = (acc.1 ++ xs.filter (movedToDirectiveB mainT),
         acc.2 ++ xs.filter (fun a => !movedToDirectiveB mainT a)) := by
  induction xs generalizing acc with
  | nil => simp
  | cons a xs ih =>
    simp only [List.foldl_cons, List.filter_cons]
    by_cases hae : alreadyExcludedB mainT a = true
    · have hm : movedToDirectiveB mainT a = false := by
        simp [movedToDirectiveB, hae]
      simp [hae, hm, ih]
    · have hae' : alreadyExcludedB mainT a = false := by simpa using hae
      by_cases hpl : previouslyLiveB mainT a = true
      · have hm : movedToDirectiveB mainT a = true := by
          simp [movedToDirectiveB, hae', hpl]
        simp [hae', hpl, hm, ih]
      · have hpl' : previouslyLiveB mainT a = false := by simpa using hpl
        have hm : movedToDirectiveB mainT a = false := by
          simp [movedToDirectiveB, hpl']
        simp [hae', hpl', hm, ih]

/-- `create_templates_for_deleted_files` unrolled: filter out the
already-deleted records, force the rest to `deleted = True`. -/
theorem create_templates_for_deleted_files_go (ts : List TemplateRecord)
    (acc : List TemplateRecord) :
    ts.foldl
      (fun acc t =>
        if t.deleted = DeletedField.bool true then acc
        else acc ++ [{ t with deleted := DeletedField.bool true }]) acc
      = acc ++
        (ts.filter (fun t => decide (t.deleted ≠ DeletedField.bool true))).map
          (fun t => { t with deleted := DeletedField.bool true }) := by
  induction ts generalizing acc with
  | nil => simp
  | cons t ts ih =>
    by_cases h : t.deleted = DeletedField.bool true <;> simp [h, ih]

/-! ## Claim theorems -/

/-- C3: each matcher in the current record's `excluded_accounts` lands in
exactly one of three outcomes — already excluded in the baseline: kept in
the rebuilt excluded list with no deletion; previously live: moved to the
directive side; otherwise: kept as an ordinary exclusion. Concretely,
`prod` newly excluded under a baseline wildcard moves into the directive
(and into `included_accounts`), while `prod` excluded in both revisions
stays excluded with no directive. -/
theorem excluded_account_reclassification :
    (∀ (mainT : TemplateRecord) (xs : List String),
        excludedClassify mainT xs
          = (xs.filter (movedToDirectiveB mainT),
             xs.filter (fun a => !movedToDirectiveB mainT a)))
    ∧ reconcileOne [] (mkRec ["*"] [] (DeletedField.bool false))
        (mkRec ["*"] ["prod"] (DeletedField.bool false))
      = { mkRec ["*"] [] (DeletedField.bool false) with
          included_accounts := ["*", "prod"]
          excluded_accounts := []
          deleted := DeletedField.dirs
            [{ deleted := true, included_accounts := ["prod"],
               excluded_accounts := [] }] }
    ∧ reconcileOne [] (mkRec ["*"] ["prod"] (DeletedField.bool false))
        (mkRec ["*"] ["prod"] (DeletedField.bool false))
      = mkRec ["*"] ["prod"] (DeletedField.bool false) := by
  refine ⟨fun mainT xs => ?_, by decide, by decide⟩
  simpa [excludedClassify] using excludedClassify_go mainT xs ([], [])

/-- C9: the Deletion Materializer skips every record already carrying
`deleted = True` and, for every other record, emits exactly one copy with
`deleted` forced to `True` and all remaining fields untouched. -/
theorem materialize_deleted_idempotent :
    ∀ ts : List TemplateRecord,
      create_templates_for_deleted_files ts
        = (ts.filter
              (fun t => decide (t.deleted ≠ DeletedField.bool true))).map
            (fun t => { t with deleted := DeletedField.bool true }) := by
  intro ts
  simpa [create_templates_for_deleted_files] using
    create_templates_for_deleted_files_go ts []

/-- C10: coverage is decided by substring search into the newline-joined
current `included_accounts`, so a dropped account whose identifier is a
substring of a remaining one cross-matches and receives no deletion
matcher: `prod` is removed from the baseline list yet, because `prod` is a
substring of the surviving `production`, the accumulator stays empty and
the record comes back unchanged. -/
theorem substring_crossmatch_drops_no_matcher :
    "prod" ∈ (mkRec ["prod", "production"] []
        (DeletedField.bool false)).included_accounts
    ∧ "prod" ∉ (mkRec ["production"] []
        (DeletedField.bool false)).included_accounts
    ∧ deletedIncludedAccounts []
        (mkRec ["prod", "production"] [] (DeletedField.bool false))
        (mkRec ["production"] [] (DeletedField.bool false)) = []
    ∧ reconcileOne []
        (mkRec ["prod", "production"] [] (DeletedField.bool false))
        (mkRec ["production"] [] (DeletedField.bool false))
      = mkRec ["production"] [] (DeletedField.bool false) :=
  ⟨by decide, by decide, by decide, by decide⟩

/-- C6 counterexample: a repository whose only branch is `master` refutes
the claim — the source resolves an unset `from_sha` to the literal
`"origin/main"`, while the claimed `origin/<main-or-master>` resolution
would yield `"origin/master"`. -/
theorem fromRev_hardcoded_counterexample :
    resolveFromRev none = "origin/main"
    ∧ resolveFromRevSpec ["master"] none = Except.ok "origin/master"
    ∧ resolveFromRev none ≠ "origin/master" :=
  ⟨rfl, rfl, by decide⟩

/-- C6 amended: with `from_sha` unset the remotes are fetched and the
baseline resolves to the hardcoded ref `origin/main` whatever branches
exist; the `main_or_master` helper is the piece that fails when neither
`main` nor `master` is present, and `retrieve_git_changes` never calls
it. -/
theorem fromRev_resolution_amended :
    fetchesRemotes none = true
    ∧ resolveFromRev none = "origin/main"
    ∧ ∀ heads : List String, heads.contains "main" = false →
        heads.contains "master" = false →
        main_or_master heads
          = Except.error "Repository does not contain main or master" := by
  refine ⟨rfl, rfl, fun heads h1 h2 => ?_⟩
  have h1' : "main" ∉ heads := by simpa using h1
  have h2' : "master" ∉ heads := by simpa using h2
  simp [main_or_master, h1', h2']

/-- Witness for the amended C6 at the branch list `["dev"]`. -/
theorem fromRev_resolution_amended_witness :
    (["dev"] : List String).contains "main" = false
    ∧ (["dev"] : List String).contains "master" = false
    ∧ main_or_master ["dev"]
        = Except.error "Repository does not contain main or master" :=
  ⟨by decide, by decide,
    fromRev_resolution_amended.2.2 ["dev"] (by decide) (by decide)⟩

/-- C8 evaluated at the failing input: with the working tree dirty and
`allow_dirty = true` the dirty-repo report is still emitted (the flag is
never consulted), and the diff is computed and returned all the same. -/
theorem dirty_report_fires_regardless_of_allow_dirty :
    ∀ (env : ParseEnv) (repo_dir : String) (disk : String → String)
      (changes : List ChangeEntry),
      (retrieve_git_changes_full env repo_dir disk changes true true).1 ≠ []
      ∧ (retrieve_git_changes_full env repo_dir disk changes true true).2
          = retrieve_git_changes env repo_dir disk changes := by
  intro env repo_dir disk changes
  exact ⟨by simp [retrieve_git_changes_full, dirtyLogs], rfl⟩

/-- C1 counterexample: with baseline `included_accounts = ["prod",
"staging"]` and current `["staging"]`, the synthesized directive carries
`excluded_accounts = ["staging"]` — the snapshot of the *current* record's
list — not the claimed baseline list `["prod", "staging"]`. -/
theorem directive_excluded_snapshot_counterexample :
    (reconcileOne []
        (mkRec ["prod", "staging"] [] (DeletedField.bool false))
        (mkRec ["staging"] [] (DeletedField.bool false))).deleted
      = DeletedField.dirs
          [{ deleted := true, included_accounts := ["prod"],
             excluded_accounts := ["staging"] }]
    ∧ (["staging"] : List String)
        ≠ (mkRec ["prod", "staging"] []
            (DeletedField.bool false)).included_accounts.filter
            (fun ea => ea != "*") :=
  ⟨by decide, by decide⟩

/-- C1 amended: when the accumulator is non-empty and `deleted` is not
boolean `true`, the appended directive has `deleted = true`,
`included_accounts` the accumulated dropped matchers, and
`excluded_accounts` the *current* record's `included_accounts` as
snapshotted before reconciliation, stripped of the wildcard; a boolean
(`false`) `deleted` is replaced by the one-element list. -/
theorem directive_shape_amended (config : List AwsAccount)
    (mainT t : TemplateRecord)
    (h1 : deletedIncludedAccounts config mainT t ≠ [])
    (h2 : t.deleted ≠ DeletedField.bool true) :
    ∃ prior : List Deleted,
      (reconcileOne config mainT t).deleted
        = DeletedField.dirs (prior ++
            [{ deleted := true
               included_accounts := deletedIncludedAccounts config mainT t
               excluded_accounts :=
                 t.included_accounts.filter (fun ea => ea != "*") }])
      ∧ (t.deleted = DeletedField.bool false → prior = []) := by
  have hne : (deletedIncludedAccounts config mainT t).isEmpty = false := by
    cases hl : deletedIncludedAccounts config mainT t with
    | nil => exact absurd hl h1
    | cons a l => rfl
  cases htd : t.deleted with
  | bool b =>
    cases b with
    | true => exact absurd htd h2
    | false =>
      refine ⟨[], ?_, fun _ => rfl⟩
      simp [reconcileOne, hne, htd, mkDirective]
  | dirs l =>
    refine ⟨l, ?_, fun hb => by simp at hb⟩
    simp [reconcileOne, hne, htd, mkDirective]

/-- Witness for the amended C1 at baseline `["prod","staging"]`, current
`["staging"]`. -/
theorem directive_shape_amended_witness :
    deletedIncludedAccounts []
        (mkRec ["prod", "staging"] [] (DeletedField.bool false))
        (mkRec ["staging"] [] (DeletedField.bool false)) ≠ []
    ∧ (mkRec ["staging"] [] (DeletedField.bool false)).deleted
        ≠ DeletedField.bool true
    ∧ ∃ prior : List Deleted,
        (reconcileOne []
            (mkRec ["prod", "staging"] [] (DeletedField.bool false))
            (mkRec ["staging"] [] (DeletedField.bool false))).deleted
          = DeletedField.dirs (prior ++
              [{ deleted := true
                 included_accounts := deletedIncludedAccounts []
                   (mkRec ["prod", "staging"] [] (DeletedField.bool false))
                   (mkRec ["staging"] [] (DeletedField.bool false))
                 excluded_accounts :=
                   (mkRec ["staging"] []
                       (DeletedField.bool false)).included_accounts.filter
                     (fun ea => ea != "*") }])
        ∧ ((mkRec ["staging"] [] (DeletedField.bool false)).deleted
              = DeletedField.bool false → prior = []) :=
  ⟨by decide, by decide,
    directive_shape_amended []
      (mkRec ["prod", "staging"] [] (DeletedField.bool false))
      (mkRec ["staging"] [] (DeletedField.bool false))
      (by decide) (by decide)⟩

/-- C2: the shrink pass covers exactly the dropped accounts. Wildcard
narrowing: with a registry of prod/staging/dev accounts whose prod
identifiers do not occur in `"dev\nstaging"`, the directive holds exactly
the prod alternation pattern. Explicit shrink: baseline
`["prod","staging","dev"]` against current `["staging","dev"]` yields a
directive covering exactly `prod`. -/
theorem shrink_pass_exactness (pid pname : String)
    (h1 : reSearchLit pid "dev\nstaging" = false)
    (h2 : reSearchLit pname "dev\nstaging" = false) :
    (reconcileOne
        [{ account_id := pid, account_name := pname },
         { account_id := "2222", account_name := "staging" },
         { account_id := "3333", account_name := "dev" }]
        (mkRec ["*"] [] (DeletedField.bool false))
        (mkRec ["dev", "staging"] [] (DeletedField.bool false))).deleted
      = DeletedField.dirs
          [{ deleted := true
             included_accounts := ["(" ++ pid ++ "|" ++ pname ++ ")"]
             excluded_accounts := ["dev", "staging"] }]
    ∧ (reconcileOne []
        (mkRec ["prod", "staging", "dev"] [] (DeletedField.bool false))
        (mkRec ["staging", "dev"] [] (DeletedField.bool false))).deleted
      = DeletedField.dirs
          [{ deleted := true, included_accounts := ["prod"],
             excluded_accounts := ["staging", "dev"] }] := by
  constructor
  · have hj : joinNL ["dev", "staging"] = "dev\nstaging" := by decide
    have hs : reSearchLit "staging" "dev\nstaging" = true := by decide
    have hd : reSearchLit "dev" "dev\nstaging" = true := by decide
    simp [reconcileOne, deletedIncludedAccounts, shrinkPass, wildcardShrink,
      excludedClassify, accountRegexSearch, accountRegex, mkRec, mkDirective,
      hj, h1, h2, hs, hd]
  · decide

/-- Witness for C2 with prod identifiers `"1111"`/`"prod"`. -/
theorem shrink_pass_exactness_witness :
    reSearchLit "1111" "dev\nstaging" = false
    ∧ reSearchLit "prod" "dev\nstaging" = false
    ∧ ((reconcileOne
          [{ account_id := "1111", account_name := "prod" },
           { account_id := "2222", account_name := "staging" },
           { account_id := "3333", account_name := "dev" }]
          (mkRec ["*"] [] (DeletedField.bool false))
          (mkRec ["dev", "staging"] [] (DeletedField.bool false))).deleted
        = DeletedField.dirs
            [{ deleted := true
               included_accounts := ["(" ++ "1111" ++ "|" ++ "prod" ++ ")"]
               excluded_accounts := ["dev", "staging"] }]
      ∧ (reconcileOne []
          (mkRec ["prod", "staging", "dev"] [] (DeletedField.bool false))
          (mkRec ["staging", "dev"] [] (DeletedField.bool false))).deleted
        = DeletedField.dirs
            [{ deleted := true, included_accounts := ["prod"],
               excluded_accounts := ["staging", "dev"] }]) :=
  ⟨by decide, by decide,
    shrink_pass_exactness "1111" "prod" (by decide) (by decide)⟩

/-- C7: a record whose `deleted` field already holds a directive list gets
the new directive appended after the unchanged priors; a boolean `false`
`deleted` is replaced by the one-element list. -/
theorem directive_accumulation (config : List AwsAccount)
    (mainT t : TemplateRecord) (l : List Deleted)
    (h1 : deletedIncludedAccounts config mainT t ≠ []) :
    (t.deleted = DeletedField.dirs l →
        (reconcileOne config mainT t).deleted
          = DeletedField.dirs (l ++ [mkDirective config mainT t]))
    ∧ (t.deleted = DeletedField.bool false →
        (reconcileOne config mainT t).deleted
          = DeletedField.dirs [mkDirective config mainT t]) := by
  have hne : (deletedIncludedAccounts config mainT t).isEmpty = false := by
    cases hl : deletedIncludedAccounts config mainT t with
    | nil => exact absurd hl h1
    | cons a l' => rfl
  constructor
  · intro htd
    simp [reconcileOne, hne, htd]
  · intro htd
    simp [reconcileOne, hne, htd]

/-- Witness for C7: a second reconciliation appends to the one existing
directive. -/
theorem directive_accumulation_witness :
    deletedIncludedAccounts []
        (mkRec ["prod", "staging"] [] (DeletedField.bool false))
        (mkRec ["staging"] []
          (DeletedField.dirs
            [{ deleted := true, included_accounts := ["x"],
               excluded_accounts := ["y"] }])) ≠ []
    ∧ (reconcileOne []
          (mkRec ["prod", "staging"] [] (DeletedField.bool false))
          (mkRec ["staging"] []
            (DeletedField.dirs
              [{ deleted := true, included_accounts := ["x"],
                 excluded_accounts := ["y"] }]))).deleted
        = DeletedField.dirs
            ([{ deleted := true, included_accounts := ["x"],
                excluded_accounts := ["y"] }] ++
              [mkDirective []
                (mkRec ["prod", "staging"] [] (DeletedField.bool false))
                (mkRec ["staging"] []
                  (DeletedField.dirs
                    [{ deleted := true, included_accounts := ["x"],
                       excluded_accounts := ["y"] }]))]) :=
  ⟨by decide,
    (directive_accumulation []
        (mkRec ["prod", "staging"] [] (DeletedField.bool false))
        (mkRec ["staging"] []
          (DeletedField.dirs
            [{ deleted := true, included_accounts := ["x"],
               excluded_accounts := ["y"] }]))
        [{ deleted := true, included_accounts := ["x"],
           excluded_accounts := ["y"] }]
        (by decide)).1 rfl⟩

/-- C4: a renamed managed document whose pre- and post-image parse to
order-insensitively equal documents contributes to none of the three
buckets. -/
theorem rename_noop (env : ParseEnv) (repo_dir : String)
    (disk : String → String) (e : ChangeEntry)
    (hk : e.kind = ChangeKind.M)
    (hy : strEndsWith (pathJoin repo_dir e.b_path) ".yaml" = true)
    (hpost : env.noqMatch (disk (pathJoin repo_dir e.b_path)) = true)
    (hren : pathJoin repo_dir e.a_path ≠ pathJoin repo_dir e.b_path)
    (hpre : env.noqMatch e.a_content = true)
    (heq : deepDiffEmptyB (env.parse (disk (pathJoin repo_dir e.b_path)))
        (env.parse e.a_content) = true) :
    retrieve_git_changes env repo_dir disk [e]
      = { new_files := [], deleted_files := [], modified_files := [] } := by
  have hren' :
      (pathJoin repo_dir e.a_path != pathJoin repo_dir e.b_path) = true := by
    simpa using hren
  have hm : processModified env repo_dir disk e = ([], [], []) := by
    simp [processModified, hy, hpost, hren', hpre, heq]
  simp [retrieve_git_changes, hk, hm]

/-- Witness for C4: renaming `a.yaml` to `b.yaml` with identical parses
emits nothing. -/
theorem rename_noop_witness :
    renameEntry.kind = ChangeKind.M
    ∧ strEndsWith (pathJoin "/repo" renameEntry.b_path) ".yaml" = true
    ∧ pureRenameEnv.noqMatch
        (diskPost (pathJoin "/repo" renameEntry.b_path)) = true
    ∧ pathJoin "/repo" renameEntry.a_path
        ≠ pathJoin "/repo" renameEntry.b_path
    ∧ pureRenameEnv.noqMatch renameEntry.a_content = true
    ∧ deepDiffEmptyB
        (pureRenameEnv.parse
          (diskPost (pathJoin "/repo" renameEntry.b_path)))
        (pureRenameEnv.parse renameEntry.a_content) = true
    ∧ retrieve_git_changes pureRenameEnv "/repo" diskPost [renameEntry]
        = { new_files := [], deleted_files := [], modified_files := [] } :=
  ⟨by decide, by decide, by decide, by decide, by decide, by decide,
    rename_noop pureRenameEnv "/repo" diskPost renameEntry
      (by decide) (by decide) (by decide) (by decide) (by decide)
      (by decide)⟩

/-- C5: a renamed managed document with structurally different images and a
changed `resource_id` yields exactly one deleted record (old path,
pre-image content) and one new record (post path, no content), and no
modified record. -/
theorem rename_identity_change_split (env : ParseEnv) (repo_dir : String)
    (disk : String → String) (e : ChangeEntry)
    (hk : e.kind = ChangeKind.M)
    (hy : strEndsWith (pathJoin repo_dir e.b_path) ".yaml" = true)
    (hpost : env.noqMatch (disk (pathJoin repo_dir e.b_path)) = true)
    (hren : pathJoin repo_dir e.a_path ≠ pathJoin repo_dir e.b_path)
    (hpre : env.noqMatch e.a_content = true)
    (hneq : deepDiffEmptyB (env.parse (disk (pathJoin repo_dir e.b_path)))
        (env.parse e.a_content) = false)
    (hid : env.resourceId (env.parse e.a_content)
        ≠ env.resourceId (env.parse (disk (pathJoin repo_dir e.b_path)))) :
    retrieve_git_changes env repo_dir disk [e]
      = { new_files := [{ path := pathJoin repo_dir e.b_path }]
          deleted_files :=
            [⟨pathJoin repo_dir e.a_path, some e.a_content, true⟩]
          modified_files := [] } := by
  have hren' :
      (pathJoin repo_dir e.a_path != pathJoin repo_dir e.b_path) = true := by
    simpa using hren
  have hid' :
      (env.resourceId (env.parse e.a_content)
        != env.resourceId (env.parse (disk (pathJoin repo_dir e.b_path))))
        = true := by
    simpa using hid
  have hm : processModified env repo_dir disk e
      = ([{ path := pathJoin repo_dir e.b_path }],
         [⟨pathJoin repo_dir e.a_path, some e.a_content, true⟩], []) := by
    simp [processModified, hy, hpost, hren', hpre, hneq, hid']
  simp [retrieve_git_changes, hk, hm]

/-- Witness for C5: renaming `a.yaml` to `b.yaml` while the parsed identity
moves from `old@x` to `new@x` splits into one deleted and one new
record. -/
theorem rename_identity_change_split_witness :
    renameEntry.kind = ChangeKind.M
    ∧ strEndsWith (pathJoin "/repo" renameEntry.b_path) ".yaml" = true
    ∧ idChangeEnv.noqMatch
        (diskPost (pathJoin "/repo" renameEntry.b_path)) = true
    ∧ pathJoin "/repo" renameEntry.a_path
        ≠ pathJoin "/repo" renameEntry.b_path
    ∧ idChangeEnv.noqMatch renameEntry.a_content = true
    ∧ deepDiffEmptyB
        (idChangeEnv.parse (diskPost (pathJoin "/repo" renameEntry.b_path)))
        (idChangeEnv.parse renameEntry.a_content) = false
    ∧ idChangeEnv.resourceId (idChangeEnv.parse renameEntry.a_content)
        ≠ idChangeEnv.resourceId
            (idChangeEnv.parse
              (diskPost (pathJoin "/repo" renameEntry.b_path)))
    ∧ retrieve_git_changes idChangeEnv "/repo" diskPost [renameEntry]
        = { new_files := [{ path := pathJoin "/repo" renameEntry.b_path }]
            deleted_files :=
              [⟨pathJoin "/repo" renameEntry.a_path,
                some renameEntry.a_content, true⟩]
            modified_files := [] } :=
  ⟨by decide, by decide, by decide, by decide, by decide, by decide,
    by decide,
    rename_identity_change_split idChangeEnv "/repo" diskPost renameEntry
      (by decide) (by decide) (by decide) (by decide) (by decide)
      (by decide) (by decide)⟩

end Iambic
